import Mathlib

/-!
Verification of the XP-tracker web application (Go, PostgreSQL).

The repository contains two variants of the same application:

* `src/unnamed/part_002` — a single global `AppState` guarded by a process-wide
  mutex; every handler takes `state.Lock()` before touching state, so handlers
  execute strictly one at a time.  It validates form input, and its `/add-xp`
  handler unlocks every level crossed by a completion.
* `src/main.go` — the session-keyed variant: every row carries a `session_id`
  and a fresh `AppState` is built per request (no lock).  Its `/add-xp`
  handler contains no level-unlock code at all, and its `/add-task` and
  `/add-unlockable` handlers perform no validation (raw form strings go
  straight into SQL).

Both variants are embedded below: namespace `GlobalApp` models
`src/unnamed/part_002`, namespace `SessionApp` models `src/main.go`.
State is the committed database state; handlers run a transaction and on
any error return the pre-call state (rollback).  Machine integers are
modelled as `Int` (Go `int` / SQL `INTEGER`); the quantities reachable in
every scenario below stay far below 2^31, so wrap-around is not modelled.
Go's truncating division and remainder are `Int.tdiv` / `Int.tmod`.
-/

/-! ### Binary64 model for `GetProgressPercentage`

Both variants compute (part_002 line 455-458, main.go line 325-328):

  currentLevelXP := a.TotalXP % 1000
  return int(float64(currentLevelXP) / 1000 * 100)

This is IEEE-754 binary64 arithmetic: `float64(r)` is exact for `r < 2^53`,
`/ 1000` and `* 100` are each correctly rounded (round-to-nearest, ties to
even), and `int(...)` truncates toward zero.  We model the doubles exactly
as dyadic rationals scaled by `2^62`: every value arising here lies in
`{0} ∪ [2^-10, 2^7)`, whose binary64 members are integer multiples of
`2^-62`, so the scaled representation is exact. -/

/-- Round the rational `num / den` to the nearest integer, ties to even —
the IEEE-754 default rounding applied to a scaled mantissa. -/
def rne (num den : Nat) : Nat :=
  let q := num / den
  let r := num % den
  if 2 * r < den then q
  else if den < 2 * r then q + 1
  else if q % 2 = 0 then q else q + 1

/-- Biased exponent search: returns `e + 10` where `e = ⌊log2 (num/den)⌋`,
for values `num/den` in `[2^-10, 2^7)` (the range arising in the progress
computation).  `den * 2^k ≤ num * 2^10` decides `2^(k-10) ≤ num/den`. -/
def expFindGo (num den : Nat) : Nat → Nat
  | 0 => 0
  | k+1 => if den * 2 ^ (k+1) <= num * 2 ^ 10 then k+1 else expFindGo num den k

/-- Correctly rounded binary64 value of `num / den`, scaled by `2^62`,
for `num / den` in `{0} ∪ [2^-10, 2^7)`: with `ep = e + 10`, the rounded
mantissa is `rne (num · 2^(52-e) / den)` and the scaled result multiplies
it back by `2^(e+10)`. -/
def roundFix (num den : Nat) : Nat :=
  if num = 0 then 0
  else
    let ep := expFindGo num den 16
    rne (num * 2 ^ (62 - ep)) den * 2 ^ ep

/-- Value of `int(float64(r) / 1000 * 100)` for a remainder `r` (Go source:
`GetProgressPercentage`).  `float64(r)` is exact, the division and the
multiplication round to nearest-even, and the final `int` conversion
truncates (floor, as the value is non-negative). -/
def goProgressOfRem (r : Nat) : Nat :=
  roundFix (roundFix r 1000 * 100) (2 ^ 62) / 2 ^ 62

/-! ### Shared row types -/

/-- Error/response classes surfaced by the handlers: `badRequest` is the
400-class `http.Error(..., http.StatusBadRequest)`, `internal` the
500-class `http.StatusInternalServerError` (store failure). -/
inductive Err where
  | badRequest (msg : String)
  | internal (msg : String)
deriving DecidableEq, Repr

namespace GlobalApp

/-- Task row (part_002 lines 21-26; SQL table `tasks`, lines 50-56). -/
structure Task where
  id : Int
  name : String
  xp : Int
  completed : Bool
deriving DecidableEq, Repr

/-- Unlockable row (part_002 lines 28-32; SQL table `unlockables`). -/
structure Unlockable where
  id : Int
  level : Int
  description : String
deriving DecidableEq, Repr

/-! Embedding of `src/unnamed/part_002`: one global state (tables
`app_state`, `tasks`, `unlockables`, `unlocked_levels`), every handler
serialized by `state.Lock()`.  `nextTaskId` / `nextUnlockableId` model the
`SERIAL` sequences (Postgres sequences start at 1). -/

structure AppState where
  totalXP : Int
  tasks : List Task
  unlockables : List Unlockable
  unlocked : List Int
  nextTaskId : Int
  nextUnlockableId : Int
deriving DecidableEq, Repr

/-- Fresh database: `app_state` row `(1, 0)`, all other tables empty
(part_002 lines 131-138). -/
def initState : AppState :=
  { totalXP := 0, tasks := [], unlockables := [], unlocked := [],
    nextTaskId := 1, nextUnlockableId := 1 }

/-- The `/add-task` handler (part_002 lines 266-315).  `fmt.Sscanf` leaves
`xp` at its zero value when the field is missing or non-numeric, modelled
by `xpField.getD 0`; then `if name == "" || xp <= 0` rejects with 400
"Invalid input", else the row is inserted (`completed = false`). -/
def addTask (s : AppState) (name : String) (xpField : Option Int) : Except Err AppState :=
  let xp := xpField.getD 0
  if name = "" || xp ≤ 0 then .error (.badRequest "Invalid input")
  else .ok { s with
    tasks := s.tasks ++ [{ id := s.nextTaskId, name := name, xp := xp, completed := false }],
    nextTaskId := s.nextTaskId + 1 }

/-- One `INSERT INTO unlocked_levels (level, unlocked) VALUES ($1, true)`
(part_002 line 357): `level` is the table's `PRIMARY KEY`, so inserting an
already-present level is a unique-constraint store failure. -/
def insertUnlockedLevel (unl : List Int) (lv : Int) : Except Err (List Int) :=
  if lv ∈ unl then .error (.internal "duplicate key value violates unique constraint")
  else .ok (unl ++ [lv])

/-- Levels strictly between `previousLevel` and `newLevel` inclusive of the
latter — the loop bounds `for level := previousLevel + 1; level <= newLevel`
(part_002 line 356); empty when `newLevel ≤ previousLevel`. -/
def crossedLevels (previousLevel newLevel : Int) : List Int :=
  (List.range (newLevel - previousLevel).toNat).map (fun i => previousLevel + 1 + i)

/-- The unlock loop (part_002 lines 355-364): inserts each crossed level in
order, aborting the transaction on the first store failure. -/
def insertUnlockedLevels (unl : List Int) : List Int → Except Err (List Int)
  | [] => .ok unl
  | lv :: rest =>
    match insertUnlockedLevel unl lv with
    | .error e => .error e
    | .ok unl' => insertUnlockedLevels unl' rest

/-- The `/add-xp` handler (part_002 lines 317-369), i.e. `complete_task`.
`UPDATE tasks SET completed = true WHERE id = $1 AND completed = false
RETURNING xp` matches the first (unique, `id` is the primary key) row with
this id and `completed = false`; no row gives `sql.ErrNoRows`, surfaced as
the 400 error "Task already completed or not found".  Otherwise the task is
marked, `TotalXP` grows by its xp, and every level in
`(previousLevel, newLevel]` is inserted into `unlocked_levels`.  On any
store failure the transaction rolls back: the returned error carries no
state change. -/
def completeTask (s : AppState) (taskId : Int) : Except Err AppState :=
  match s.tasks.find? (fun t => t.id == taskId && !t.completed) with
  | none => .error (.badRequest "Task already completed or not found")
  | some t =>
    let previousLevel := Int.tdiv s.totalXP 1000
    let newTotal := s.totalXP + t.xp
    let newLevel := Int.tdiv newTotal 1000
    match insertUnlockedLevels s.unlocked (crossedLevels previousLevel newLevel) with
    | .error e => .error e
    | .ok unl =>
      .ok { s with
        totalXP := newTotal,
        tasks := s.tasks.map (fun u =>
          if u.id == taskId && !u.completed then { u with completed := true } else u),
        unlocked := unl }

/-- The `/add-unlockable` handler (part_002 lines 396-450).  `fmt.Sscanf`
leaves `level` at 0 on a missing or non-numeric field (`levelField.getD 0`);
empty description and negative level are rejected with 400; the insert hits
the table's `UNIQUE (level, description)` constraint on a duplicate pair
(store failure).  No code path touches `unlocked_levels` or `TotalXP`. -/
def addUnlockable (s : AppState) (levelField : Option Int) (description : String) :
    Except Err AppState :=
  let level := levelField.getD 0
  if description = "" then .error (.badRequest "Description is required")
  else if level < 0 then .error (.badRequest "Level must be positive")
  else if s.unlockables.any (fun u => u.level == level && u.description == description) then
    .error (.internal "duplicate key value violates unique constraint")
  else .ok { s with
    unlockables := s.unlockables ++
      [{ id := s.nextUnlockableId, level := level, description := description }],
    nextUnlockableId := s.nextUnlockableId + 1 }

/-- Method `GetProgressPercentage` (part_002 lines 455-458):
`currentLevelXP := a.TotalXP % 1000` (Go `%` truncates toward zero, i.e.
`Int.tmod`), then `int(float64(currentLevelXP) / 1000 * 100)`.  For a
negative remainder every step of the float pipeline is sign-symmetric and
the `int` conversion truncates toward zero, so the value is the negation of
the non-negative computation on the magnitude. -/
def GetProgressPercentage (a : AppState) : Int :=
  let currentLevelXP := Int.tmod a.totalXP 1000
  if 0 ≤ currentLevelXP then (goProgressOfRem currentLevelXP.toNat : Int)
  else -(goProgressOfRem (-currentLevelXP).toNat : Int)

/-- External requests a client can issue against part_002. -/
inductive Op where
  | addTask (name : String) (xpField : Option Int)
  | completeTask (taskId : Int)
  | addUnlockable (levelField : Option Int) (description : String)
  | render

/-- State reached after one request: the handlers run under the global
mutex, and every error path returns before mutating committed state
(transactions roll back), so a failed request leaves the state unchanged.
The `/` render handler only reads. -/
def stepOp (s : AppState) : Op → AppState
  | .addTask n x => match addTask s n x with | .ok s' => s' | .error _ => s
  | .completeTask tid => match completeTask s tid with | .ok s' => s' | .error _ => s
  | .addUnlockable lv d => match addUnlockable s lv d with | .ok s' => s' | .error _ => s
  | .render => s

/-- Sequential execution of a request list (the global lock serializes all
handlers). -/
def run (s : AppState) (ops : List Op) : AppState := ops.foldl stepOp s

/-- Every stored task has positive xp — the SQL `CHECK (xp > 0)` together
with the handler validation; it holds in every reachable state. -/
def TasksPositive (s : AppState) : Prop := ∀ t ∈ s.tasks, 0 < t.xp

end GlobalApp

namespace SessionApp

/-! Embedding of `src/main.go`: the database tables with their `session_id`
columns (schema lines 54-94).  `unlocked_levels` exists and is read by
`loadUnlockedLevels` (lines 184-199) but no statement in main.go ever
inserts into it. -/

structure SessionRow where
  id : String
  totalXP : Int
deriving DecidableEq, Repr

structure TaskRow where
  id : Int
  name : String
  xp : Int
  completed : Bool
  sessionId : String
deriving DecidableEq, Repr

structure UnlockableRow where
  id : Int
  level : Int
  description : String
  sessionId : String
deriving DecidableEq, Repr

structure UnlockedLevelRow where
  level : Int
  unlocked : Bool
  sessionId : String
deriving DecidableEq, Repr

/-- The whole database.  `nextTaskId` / `nextUnlockableId` are the `SERIAL`
sequences of `tasks` and `unlockables` — a single sequence each, shared by
all sessions. -/
structure Store where
  sessions : List SessionRow
  tasks : List TaskRow
  unlockables : List UnlockableRow
  unlockedLevels : List UnlockedLevelRow
  nextTaskId : Int
  nextUnlockableId : Int
deriving DecidableEq, Repr

def Store.init : Store :=
  { sessions := [], tasks := [], unlockables := [], unlockedLevels := [],
    nextTaskId := 1, nextUnlockableId := 1 }

/-- `INSERT INTO sessions (id) VALUES ($1) ON CONFLICT (id) DO NOTHING`
(main.go lines 147 and 331): run by `initAppState` / `initSession` at the
start of every request. -/
def ensureSession (st : Store) (sid : String) : Store :=
  if st.sessions.any (fun r => r.id == sid) then st
  else { st with sessions := st.sessions ++ [{ id := sid, totalXP := 0 }] }

/-- `SELECT total_xp FROM sessions WHERE id = $1` (main.go lines 171 and
336); after `ensureSession` the row exists, the 0 default is unreachable. -/
def getSessionTotal (st : Store) (sid : String) : Int :=
  match st.sessions.find? (fun r => r.id == sid) with
  | some r => r.totalXP
  | none => 0

/-- `SELECT id, name, xp, completed FROM tasks WHERE session_id = $1`
(main.go line 154). -/
def getTasks (st : Store) (sid : String) : List TaskRow :=
  st.tasks.filter (fun t => t.sessionId == sid)

/-- `SELECT id, level, description FROM unlockables WHERE session_id = $1`
(main.go line 155). -/
def getUnlockables (st : Store) (sid : String) : List UnlockableRow :=
  st.unlockables.filter (fun u => u.sessionId == sid)

/-- `SELECT level FROM unlocked_levels WHERE session_id = $1 AND
unlocked = true` (main.go line 185). -/
def getUnlockedLevels (st : Store) (sid : String) : List Int :=
  (st.unlockedLevels.filter (fun u => u.sessionId == sid && u.unlocked)).map
    (fun u => u.level)

/-- Handler outcome: `ok` renders the fragment, `badRequest` is a 400
`http.Error`, `internal` a 500 `http.Error`. -/
inductive Resp where
  | ok
  | badRequest (msg : String)
  | internal (msg : String)
deriving DecidableEq, Repr

/-- `handleAddTask` (main.go lines 339-355): no validation — the raw form
strings go into `INSERT INTO tasks (name, xp, completed, session_id)`.  A
missing or non-numeric `xp` field fails the SQL integer cast (500), a
non-positive value fails the `CHECK (xp > 0)` constraint (500); an empty
name is accepted (`VARCHAR NOT NULL` admits the empty string). -/
def handleAddTask (st0 : Store) (sid : String) (name : String) (xpField : Option Int) :
    Store × Resp :=
  let st := ensureSession st0 sid
  match xpField with
  | none => (st, .internal "invalid input syntax for type integer")
  | some xp =>
    if xp ≤ 0 then (st, .internal "new row violates constraint tasks_xp_positive")
    else ({ st with
      tasks := st.tasks ++
        [{ id := st.nextTaskId, name := name, xp := xp, completed := false, sessionId := sid }],
      nextTaskId := st.nextTaskId + 1 }, .ok)

/-- The transaction of `handleAddXP` (main.go lines 365-395), parameterised
by the in-memory total it was given: `UPDATE tasks SET completed = true
WHERE id = $1 AND session_id = $2 AND completed = false RETURNING xp`, then
`s.TotalXP += xp` on the value loaded earlier and `UPDATE sessions SET
total_xp = $1 WHERE id = $2` writes that absolute sum.  `sql.ErrNoRows`
gives the 400 error; no level-unlock statement exists in main.go. -/
def completeTaskTx (st : Store) (sid : String) (taskId : Int) (loadedTotal : Int) :
    Store × Resp :=
  match st.tasks.find? (fun t => t.id == taskId && t.sessionId == sid && !t.completed) with
  | none => (st, .badRequest "Task already completed or not found")
  | some t =>
    ({ st with
      tasks := st.tasks.map (fun u =>
        if u.id == taskId && u.sessionId == sid && !u.completed
        then { u with completed := true } else u),
      sessions := st.sessions.map (fun r =>
        if r.id == sid then { r with totalXP := loadedTotal + t.xp } else r) }, .ok)

/-- A full sequential `/add-xp/{session}` request (main.go lines 297-305 and
357-398): `initAppState` ensures the session and loads `TotalXP` from the
`sessions` row, then the transaction commits against that loaded value. -/
def handleAddXP (st0 : Store) (sid : String) (taskId : Int) : Store × Resp :=
  let st := ensureSession st0 sid
  completeTaskTx st sid taskId (getSessionTotal st sid)

/-- `handleAddUnlockable` (main.go lines 400-416): no validation — raw form
strings go into `INSERT INTO unlockables (level, description, session_id)`.
A missing or non-numeric `level` fails the SQL integer cast (500), a
negative level fails `CHECK (level >= 0)` (500), and the table-wide
`UNIQUE (level, description)` constraint (schema line 83 — not scoped to
the session) rejects a pair already present in ANY session (500). -/
def handleAddUnlockable (st0 : Store) (sid : String) (levelField : Option Int)
    (description : String) : Store × Resp :=
  let st := ensureSession st0 sid
  match levelField with
  | none => (st, .internal "invalid input syntax for type integer")
  | some level =>
    if level < 0 then (st, .internal "new row violates constraint unlockables_level_nonneg")
    else if st.unlockables.any (fun u => u.level == level && u.description == description) then
      (st, .internal "duplicate key value violates unique constraint")
    else ({ st with
      unlockables := st.unlockables ++
        [{ id := st.nextUnlockableId, level := level, description := description,
           sessionId := sid }],
      nextUnlockableId := st.nextUnlockableId + 1 }, .ok)

/-- The `GET /{session}` render route (main.go lines 259-285): ensures the
session row and only reads. -/
def handleIndex (st0 : Store) (sid : String) : Store × Resp :=
  (ensureSession st0 sid, .ok)

/-- External requests a client can issue against main.go. -/
inductive Op where
  | addTask (name : String) (xpField : Option Int)
  | completeTask (taskId : Int)
  | addUnlockable (levelField : Option Int) (description : String)
  | render

/-- Committed store after one sequential request against session `sid`. -/
def stepOp (st : Store) (sid : String) : Op → Store
  | .addTask n x => (handleAddTask st sid n x).1
  | .completeTask tid => (handleAddXP st sid tid).1
  | .addUnlockable lv d => (handleAddUnlockable st sid lv d).1
  | .render => (handleIndex st sid).1

/-- Sequential execution of requests, each tagged with its session token. -/
def runOps (st : Store) : List (String × Op) → Store
  | [] => st
  | (sid, op) :: rest => runOps (stepOp st sid op) rest

/-- Everything a session's user observes: their total, tasks, unlockables
and unlocked levels (the data rendered by `renderAppState`). -/
structure SessionView where
  totalXP : Int
  tasks : List TaskRow
  unlockables : List UnlockableRow
  unlocked : List Int
deriving DecidableEq, Repr

def proj (st : Store) (sid : String) : SessionView :=
  { totalXP := getSessionTotal st sid, tasks := getTasks st sid,
    unlockables := getUnlockables st sid, unlocked := getUnlockedLevels st sid }

end SessionApp

/-! ### Theorems -/

/-- Coherence of the two-phase decomposition: a sequential `/add-xp` request
is exactly the commit phase applied to the total loaded at request start. -/
theorem handleAddXP_eq_tx_of_loaded (st : SessionApp.Store) (sid : String) (tid : Int) :
    SessionApp.handleAddXP st sid tid =
      SessionApp.completeTaskTx (SessionApp.ensureSession st sid) sid tid
        (SessionApp.getSessionTotal (SessionApp.ensureSession st sid) sid) := rfl

/-- C1: main.go loses an update: two `/add-xp` requests for distinct tasks
(xp 300 and xp 800) in the same session, each loading `total_xp = 0` before
either commits (each request builds a fresh `AppState` with no lock, and the
`sessions` write is an absolute value computed from the loaded total), both
report success, complete both tasks, and leave `total_xp = 800`, not 1100;
no level is marked unlocked.  This contradicts the linearizability the
claim demands.  The last conjunct shows the part_002 variant, whose global
mutex serializes the two requests, ends at 1100 with level 1 unlocked as
the claim states. -/
theorem lostUpdate_concurrent_addXP :
    let st0 : SessionApp.Store :=
      { sessions := [{ id := "s", totalXP := 0 }],
        tasks := [{ id := 1, name := "a", xp := 300, completed := false, sessionId := "s" },
                  { id := 2, name := "b", xp := 800, completed := false, sessionId := "s" }],
        unlockables := [], unlockedLevels := [], nextTaskId := 3, nextUnlockableId := 1 }
    let loaded1 := SessionApp.getSessionTotal st0 "s"
    let loaded2 := SessionApp.getSessionTotal st0 "s"
    let r1 := SessionApp.completeTaskTx st0 "s" 1 loaded1
    let r2 := SessionApp.completeTaskTx r1.1 "s" 2 loaded2
    r1.2 = .ok ∧ r2.2 = .ok ∧
    SessionApp.getSessionTotal r2.1 "s" = 800 ∧
    (SessionApp.getTasks r2.1 "s").all (fun t => t.completed) = true ∧
    SessionApp.getUnlockedLevels r2.1 "s" = [] ∧
    GlobalApp.run GlobalApp.initState
      [.addTask "a" (some 300), .addTask "b" (some 800),
       .completeTask 1, .completeTask 2] =
      { totalXP := 1100,
        tasks := [{ id := 1, name := "a", xp := 300, completed := true },
                  { id := 2, name := "b", xp := 800, completed := true }],
        unlockables := [], unlocked := [1], nextTaskId := 3, nextUnlockableId := 1 } := by
  refine ⟨rfl, rfl, rfl, rfl, rfl, rfl⟩

/-- C4: main.go records no unlock when a completion crosses a level: at
`total_xp = 950`, completing a 100-xp task succeeds and yields
`total_xp = 1050`, but `unlocked_levels` stays empty — main.go's
`handleAddXP` contains no insert into `unlocked_levels` (part_002 does,
lines 355-364, and main.go still carries the read side,
`loadUnlockedLevels`, for the feature).  The last conjunct shows part_002
on the same scenario: 950 + 100 gives 1050 with level 1 newly unlocked,
exactly as the claim states. -/
theorem mainGo_level_crossing_no_unlock :
    let st : SessionApp.Store :=
      { sessions := [{ id := "s", totalXP := 950 }],
        tasks := [{ id := 1, name := "hundred", xp := 100, completed := false, sessionId := "s" }],
        unlockables := [], unlockedLevels := [], nextTaskId := 2, nextUnlockableId := 1 }
    let r := SessionApp.handleAddXP st "s" 1
    r.2 = .ok ∧ SessionApp.getSessionTotal r.1 "s" = 1050 ∧
    r.1.unlockedLevels = [] ∧ SessionApp.getUnlockedLevels r.1 "s" = [] ∧
    GlobalApp.completeTask
      { GlobalApp.initState with
        totalXP := 950,
        tasks := [{ id := 1, name := "hundred", xp := 100, completed := false }],
        nextTaskId := 2 } 1 =
      .ok { GlobalApp.initState with
        totalXP := 1050,
        tasks := [{ id := 1, name := "hundred", xp := 100, completed := true }],
        unlocked := [1], nextTaskId := 2 } := by
  refine ⟨rfl, rfl, rfl, rfl, rfl⟩

/-- C5 counterexample: registering an unlockable at level 0 in the fresh
state (current level `0 / 1000 = 0`, so `level ≤ current level`) stores the
unlockable but does NOT mark level 0 unlocked: the resulting state differs
from the initial one only in the `unlockables` table and the sequence;
`unlocked` stays empty. -/
theorem registerUnlockable_level_zero_stays_locked :
    GlobalApp.addUnlockable GlobalApp.initState (some 0) "reward" =
      .ok { GlobalApp.initState with
        unlockables := [{ id := 1, level := 0, description := "reward" }],
        nextUnlockableId := 2 } ∧
    Int.tdiv GlobalApp.initState.totalXP 1000 = 0 := ⟨rfl, rfl⟩

/-- C7: a missing or non-numeric `level` field is silently coerced to zero
by part_002's `fmt.Sscanf` and the unlockable is stored at level 0 (no
`InvalidInput` rejection, and the state changes); and in main.go a
`Task("Clean desk", xp=0)` is rejected by the database `CHECK (xp > 0)` as
a 500 store failure, not a 400 `InvalidInput`. -/
theorem nonnumeric_fields_coerced_or_store_failure :
    GlobalApp.addUnlockable GlobalApp.initState none "bonus" =
      .ok { GlobalApp.initState with
        unlockables := [{ id := 1, level := 0, description := "bonus" }],
        nextUnlockableId := 2 } ∧
    (SessionApp.handleAddTask SessionApp.Store.init "s" "Clean desk" (some 0)).2 =
      .internal "new row violates constraint tasks_xp_positive" := ⟨rfl, rfl⟩

set_option maxRecDepth 40000 in
/-- Exhaustive evaluation of the binary64 pipeline on every remainder:
the Go result is `r / 10` except at 290, 570 and 580, where the two
roundings land just below the exact value and truncation loses one. -/
theorem goProgressOfRem_table :
    (List.range 1000).all (fun r =>
      goProgressOfRem r == (if r == 290 || r == 570 || r == 580
                            then r / 10 - 1 else r / 10)) = true := by rfl

theorem goProgressOfRem_eq (r : Nat) (h : r < 1000) :
    goProgressOfRem r = if r = 290 ∨ r = 570 ∨ r = 580 then r / 10 - 1 else r / 10 := by
  have h2 := List.all_eq_true.mp goProgressOfRem_table r (List.mem_range.mpr h)
  simp only [beq_iff_eq, Bool.or_eq_true, or_assoc] at h2
  exact h2

/-- Floor form of the spec's progress formula: for an integer remainder,
`⌊(r / 1000) * 100⌋ = r / 10` (euclidean division). -/
theorem floor_spec_progress (r : Int) : ⌊((r : ℚ) / 1000) * 100⌋ = r / 10 := by
  have h1 : ((r : ℚ) / 1000) * 100 = ((100 * r : Int) : ℚ) / ((10 * 100 : Nat) : ℚ) := by
    push_cast
    ring
  rw [h1, Rat.floor_intCast_div_natCast]
  have h2 : ((10 * 100 : Nat) : Int) = 100 * 10 := by norm_num
  rw [h2, Int.mul_ediv_mul_of_pos r 10 (by norm_num : (0 : Int) < 100)]

/-- C6 counterexample: at `total_xp = 290` the code returns 28 while the
spec's formula `floor((total_xp mod 1000) / 1000 * 100)` gives 29 — the
binary64 value of 0.29 is slightly below 29/100, and multiplying by 100
stays below 29, so the `int` truncation drops to 28. -/
theorem progress_at_290_below_floor :
    GlobalApp.GetProgressPercentage
      { totalXP := 290, tasks := [], unlockables := [], unlocked := [],
        nextTaskId := 1, nextUnlockableId := 1 } = 28 ∧
    ⌊((((290 : Int) % 1000 : Int) : ℚ) / 1000) * 100⌋ = 29 := by
  constructor
  · rfl
  · rw [floor_spec_progress]
    decide

/-- C6 amended: for every state with non-negative total xp the progress
percentage lies in `[0, 99]` (so 100 is never returned), and it equals the
spec's `⌊(total_xp mod 1000) / 1000 * 100⌋` at every remainder except 290,
570 and 580, where the binary64 rounding makes it exactly one less. -/
theorem progress_range_and_value (s : GlobalApp.AppState) (h : 0 ≤ s.totalXP) :
    0 ≤ GlobalApp.GetProgressPercentage s ∧ GlobalApp.GetProgressPercentage s ≤ 99 ∧
    GlobalApp.GetProgressPercentage s =
      (if Int.tmod s.totalXP 1000 = 290 ∨ Int.tmod s.totalXP 1000 = 570 ∨
          Int.tmod s.totalXP 1000 = 580
       then ⌊((Int.tmod s.totalXP 1000 : ℚ) / 1000) * 100⌋ - 1
       else ⌊((Int.tmod s.totalXP 1000 : ℚ) / 1000) * 100⌋) := by
  have hre : Int.tmod s.totalXP 1000 = s.totalXP % 1000 :=
    Int.tmod_eq_emod h (by norm_num)
  have hr0 : 0 ≤ Int.tmod s.totalXP 1000 := by
    rw [hre]; exact Int.emod_nonneg _ (by norm_num)
  have hrlt : Int.tmod s.totalXP 1000 < 1000 := by
    rw [hre]; exact Int.emod_lt_of_pos _ (by norm_num)
  have hgp : GlobalApp.GetProgressPercentage s =
      (goProgressOfRem (Int.tmod s.totalXP 1000).toNat : Int) := by
    simp only [GlobalApp.GetProgressPercentage]
    rw [if_pos hr0]
  have hnat : (Int.tmod s.totalXP 1000).toNat < 1000 := by omega
  have heq := goProgressOfRem_eq _ hnat
  refine ⟨?_, ?_, ?_⟩
  · rw [hgp]; exact Int.ofNat_nonneg _
  · rw [hgp, heq]; split <;> omega
  · rw [hgp, heq, floor_spec_progress]
    by_cases hc : Int.tmod s.totalXP 1000 = 290 ∨ Int.tmod s.totalXP 1000 = 570 ∨
        Int.tmod s.totalXP 1000 = 580
    · have hc2 : (Int.tmod s.totalXP 1000).toNat = 290 ∨
          (Int.tmod s.totalXP 1000).toNat = 570 ∨
          (Int.tmod s.totalXP 1000).toNat = 580 := by omega
      rw [if_pos hc2, if_pos hc]; omega
    · have hc2 : ¬((Int.tmod s.totalXP 1000).toNat = 290 ∨
          (Int.tmod s.totalXP 1000).toNat = 570 ∨
          (Int.tmod s.totalXP 1000).toNat = 580) := by omega
      rw [if_neg hc2, if_neg hc]; omega

/-- Witness for C6's amended theorem `progress_range_and_value` at the fresh state. -/
theorem progress_range_and_value_witness :
    (0 : Int) ≤ GlobalApp.initState.totalXP ∧
    (0 ≤ GlobalApp.GetProgressPercentage GlobalApp.initState ∧
     GlobalApp.GetProgressPercentage GlobalApp.initState ≤ 99 ∧
     GlobalApp.GetProgressPercentage GlobalApp.initState =
       (if Int.tmod GlobalApp.initState.totalXP 1000 = 290 ∨
           Int.tmod GlobalApp.initState.totalXP 1000 = 570 ∨
           Int.tmod GlobalApp.initState.totalXP 1000 = 580
        then ⌊((Int.tmod GlobalApp.initState.totalXP 1000 : ℚ) / 1000) * 100⌋ - 1
        else ⌊((Int.tmod GlobalApp.initState.totalXP 1000 : ℚ) / 1000) * 100⌋)) :=
  ⟨by decide, progress_range_and_value GlobalApp.initState (by decide)⟩

/-- C2: a successful `complete_task` adds exactly the completed task's xp to
the total and marks that task (and only its `completed` flag) — the task
matched is the unique row with the given id and `completed = false`. -/
theorem completeTask_adds_xp_and_marks (s : GlobalApp.AppState) (tid : Int)
    (s' : GlobalApp.AppState) (h : GlobalApp.completeTask s tid = .ok s') :
    ∃ t : GlobalApp.Task,
      s.tasks.find? (fun u => u.id == tid && !u.completed) = some t ∧
      t.id = tid ∧ t.completed = false ∧
      s'.totalXP = s.totalXP + t.xp ∧
      s'.tasks = s.tasks.map (fun u =>
        if u.id == tid && !u.completed then { u with completed := true } else u) ∧
      { t with completed := true } ∈ s'.tasks := by
  cases hf : s.tasks.find? (fun u => u.id == tid && !u.completed) with
  | none => simp [GlobalApp.completeTask, hf] at h
  | some t =>
    cases hins : GlobalApp.insertUnlockedLevels s.unlocked
        (GlobalApp.crossedLevels (Int.tdiv s.totalXP 1000)
          (Int.tdiv (s.totalXP + t.xp) 1000)) with
    | error e => simp [GlobalApp.completeTask, hf, hins] at h
    | ok unl =>
      simp only [GlobalApp.completeTask, hf, hins, Except.ok.injEq] at h
      subst h
      have hpred := List.find?_some hf
      have hmem := List.mem_of_find?_eq_some hf
      simp only [Bool.and_eq_true, beq_iff_eq, Bool.not_eq_true'] at hpred
      refine ⟨t, rfl, hpred.1, hpred.2, rfl, rfl, ?_⟩
      simp only [List.mem_map]
      exact ⟨t, hmem, by rw [if_pos (by simp [hpred.1, hpred.2])]⟩

/-- Witness for C2's theorem `completeTask_adds_xp_and_marks`: one uncompleted 300-xp
task, completed once. -/
theorem completeTask_adds_xp_and_marks_witness :
    ∃ t : GlobalApp.Task,
      ({ GlobalApp.initState with
          tasks := [{ id := 1, name := "w", xp := 300, completed := false }],
          nextTaskId := 2 } : GlobalApp.AppState).tasks.find?
            (fun u => u.id == (1 : Int) && !u.completed) = some t ∧
      t.id = 1 ∧ t.completed = false ∧
      ({ GlobalApp.initState with
          totalXP := 300,
          tasks := [{ id := 1, name := "w", xp := 300, completed := true }],
          nextTaskId := 2 } : GlobalApp.AppState).totalXP =
        ({ GlobalApp.initState with
            tasks := [{ id := 1, name := "w", xp := 300, completed := false }],
            nextTaskId := 2 } : GlobalApp.AppState).totalXP + t.xp ∧
      ({ GlobalApp.initState with
          totalXP := 300,
          tasks := [{ id := 1, name := "w", xp := 300, completed := true }],
          nextTaskId := 2 } : GlobalApp.AppState).tasks =
        ({ GlobalApp.initState with
            tasks := [{ id := 1, name := "w", xp := 300, completed := false }],
            nextTaskId := 2 } : GlobalApp.AppState).tasks.map (fun u =>
          if u.id == (1 : Int) && !u.completed then { u with completed := true } else u) ∧
      { t with completed := true } ∈
        ({ GlobalApp.initState with
            totalXP := 300,
            tasks := [{ id := 1, name := "w", xp := 300, completed := true }],
            nextTaskId := 2 } : GlobalApp.AppState).tasks :=
  completeTask_adds_xp_and_marks _ 1 _ (by rfl)

/-- C3 counterexample: the unknown-task failure and the already-completed
failure produce the very same error value (main.go and part_002 both branch
only on `sql.ErrNoRows`), so the two cases are not distinguishable by the
caller. -/
theorem completeTask_errors_indistinguishable :
    GlobalApp.completeTask GlobalApp.initState 1 =
      GlobalApp.completeTask
        { GlobalApp.initState with
          totalXP := 300,
          tasks := [{ id := 1, name := "done", xp := 300, completed := true }],
          nextTaskId := 2 } 1 ∧
    GlobalApp.completeTask GlobalApp.initState 1 =
      .error (.badRequest "Task already completed or not found") := ⟨rfl, rfl⟩

/-- C3 amended: when the task id is unknown or the task is already
completed (exactly the cases where the completing UPDATE matches no row),
`complete_task` fails with the single combined 400-class error "Task
already completed or not found"; the error class differs from every store
failure (`internal`), and every failure, store failure included, leaves the
state completely unchanged. -/
theorem completeTask_failure_combined_error (s : GlobalApp.AppState) (tid : Int)
    (h : s.tasks.find? (fun u => u.id == tid && !u.completed) = none) :
    GlobalApp.completeTask s tid =
      .error (.badRequest "Task already completed or not found") ∧
    GlobalApp.stepOp s (.completeTask tid) = s ∧
    (∀ msg : String,
      (Err.badRequest "Task already completed or not found") ≠ Err.internal msg) ∧
    (∀ (s2 : GlobalApp.AppState) (e : Err), GlobalApp.completeTask s2 tid = .error e →
      GlobalApp.stepOp s2 (.completeTask tid) = s2) := by
  have h1 : GlobalApp.completeTask s tid =
      .error (.badRequest "Task already completed or not found") := by
    simp [GlobalApp.completeTask, h]
  refine ⟨h1, by simp [GlobalApp.stepOp, h1], fun msg => by simp, ?_⟩
  intro s2 e he
  simp [GlobalApp.stepOp, he]

/-- Witness for C3's amended theorem `completeTask_failure_combined_error` at the fresh state
(no task with id 1 exists). -/
theorem completeTask_failure_combined_error_witness :
    GlobalApp.completeTask GlobalApp.initState 1 =
      .error (.badRequest "Task already completed or not found") ∧
    GlobalApp.stepOp GlobalApp.initState (.completeTask 1) = GlobalApp.initState ∧
    (∀ msg : String,
      (Err.badRequest "Task already completed or not found") ≠ Err.internal msg) ∧
    (∀ (s2 : GlobalApp.AppState) (e : Err), GlobalApp.completeTask s2 1 = .error e →
      GlobalApp.stepOp s2 (.completeTask 1) = s2) :=
  completeTask_failure_combined_error GlobalApp.initState 1 (by rfl)

/-- C5 amended: a successful `register_unlockable` stores the unlockable
and changes nothing else — in particular the unlocked-level set is left
untouched even when `level ≤ floor(total_xp / 1000)`; a level only ever
appears unlocked because some task completion crossed it. -/
theorem addUnlockable_leaves_unlocked_unchanged (s : GlobalApp.AppState)
    (level : Int) (d : String) (s' : GlobalApp.AppState)
    (h : GlobalApp.addUnlockable s (some level) d = .ok s') :
    s'.unlocked = s.unlocked ∧ s'.totalXP = s.totalXP ∧ s'.tasks = s.tasks ∧
    s'.unlockables = s.unlockables ++
      [{ id := s.nextUnlockableId, level := level, description := d }] := by
  simp only [GlobalApp.addUnlockable, Option.getD_some] at h
  split_ifs at h with h1 h2 h3
  simp only [Except.ok.injEq] at h
  subst h
  exact ⟨rfl, rfl, rfl, rfl⟩

/-- Witness for C5's amended theorem `addUnlockable_leaves_unlocked_unchanged` on the fresh
state. -/
theorem addUnlockable_leaves_unlocked_unchanged_witness :
    ({ GlobalApp.initState with
        unlockables := [{ id := 1, level := 2, description := "art" }],
        nextUnlockableId := 2 } : GlobalApp.AppState).unlocked =
      GlobalApp.initState.unlocked ∧
    ({ GlobalApp.initState with
        unlockables := [{ id := 1, level := 2, description := "art" }],
        nextUnlockableId := 2 } : GlobalApp.AppState).totalXP =
      GlobalApp.initState.totalXP ∧
    ({ GlobalApp.initState with
        unlockables := [{ id := 1, level := 2, description := "art" }],
        nextUnlockableId := 2 } : GlobalApp.AppState).tasks =
      GlobalApp.initState.tasks ∧
    ({ GlobalApp.initState with
        unlockables := [{ id := 1, level := 2, description := "art" }],
        nextUnlockableId := 2 } : GlobalApp.AppState).unlockables =
      GlobalApp.initState.unlockables ++
        [{ id := GlobalApp.initState.nextUnlockableId, level := 2, description := "art" }] :=
  addUnlockable_leaves_unlocked_unchanged GlobalApp.initState 2 "art" _ (by rfl)

/-- Characterization of a successful `complete_task` in part_002: the
matched task, the successful unlock inserts, and the exact output state. -/
theorem completeTask_ok_spec (s : GlobalApp.AppState) (tid : Int) (s' : GlobalApp.AppState)
    (h : GlobalApp.completeTask s tid = .ok s') :
    ∃ (t : GlobalApp.Task) (unl : List Int),
      s.tasks.find? (fun u => u.id == tid && !u.completed) = some t ∧
      GlobalApp.insertUnlockedLevels s.unlocked
        (GlobalApp.crossedLevels (Int.tdiv s.totalXP 1000)
          (Int.tdiv (s.totalXP + t.xp) 1000)) = .ok unl ∧
      s' = { s with
        totalXP := s.totalXP + t.xp,
        tasks := s.tasks.map (fun u =>
          if u.id == tid && !u.completed then { u with completed := true } else u),
        unlocked := unl } := by
  cases hf : s.tasks.find? (fun u => u.id == tid && !u.completed) with
  | none => simp [GlobalApp.completeTask, hf] at h
  | some t =>
    cases hins : GlobalApp.insertUnlockedLevels s.unlocked
        (GlobalApp.crossedLevels (Int.tdiv s.totalXP 1000)
          (Int.tdiv (s.totalXP + t.xp) 1000)) with
    | error e => simp [GlobalApp.completeTask, hf, hins] at h
    | ok unl =>
      simp only [GlobalApp.completeTask, hf, hins, Except.ok.injEq] at h
      exact ⟨t, unl, rfl, hins, h.symm⟩

/-- Characterization of a successful `/add-task` in part_002: the xp field
passed validation (positive) and exactly one row was appended. -/
theorem addTask_ok_spec (s : GlobalApp.AppState) (n : String) (x : Option Int)
    (s2 : GlobalApp.AppState) (h : GlobalApp.addTask s n x = .ok s2) :
    0 < x.getD 0 ∧ s2 = { s with
      tasks := s.tasks ++
        [{ id := s.nextTaskId, name := n, xp := x.getD 0, completed := false }],
      nextTaskId := s.nextTaskId + 1 } := by
  simp only [GlobalApp.addTask] at h
  split_ifs at h with h1
  simp only [Except.ok.injEq] at h
  refine ⟨?_, h.symm⟩
  simp only [Bool.or_eq_true, decide_eq_true_eq, not_or] at h1
  omega

/-- Characterization of a successful `/add-unlockable` in part_002: exactly
one unlockable row is appended, nothing else changes. -/
theorem addUnlockable_ok_spec (s : GlobalApp.AppState) (lf : Option Int) (d : String)
    (s2 : GlobalApp.AppState) (h : GlobalApp.addUnlockable s lf d = .ok s2) :
    s2 = { s with
      unlockables := s.unlockables ++
        [{ id := s.nextUnlockableId, level := lf.getD 0, description := d }],
      nextUnlockableId := s.nextUnlockableId + 1 } := by
  simp only [GlobalApp.addUnlockable] at h
  split_ifs at h
  simp only [Except.ok.injEq] at h
  exact h.symm

/-- The unlock loop only ever appends: the input unlocked set survives into
any successful output. -/
theorem insertUnlockedLevels_ok_subset (lvs : List Int) :
    ∀ (unl unl' : List Int),
      GlobalApp.insertUnlockedLevels unl lvs = .ok unl' → unl ⊆ unl' := by
  induction lvs with
  | nil =>
    intro unl unl' h
    simp only [GlobalApp.insertUnlockedLevels, Except.ok.injEq] at h
    exact h ▸ List.Subset.refl _
  | cons lv rest ih =>
    intro unl unl' h
    simp only [GlobalApp.insertUnlockedLevels, GlobalApp.insertUnlockedLevel] at h
    by_cases hm : lv ∈ unl
    · rw [if_pos hm] at h
      simp at h
    · rw [if_neg hm] at h
      have h2 := ih (unl ++ [lv]) unl' h
      intro a ha
      exact h2 (List.mem_append_left _ ha)

/-- One request never decreases the total, never shrinks the unlocked set,
and preserves positivity of stored xp values. -/
theorem stepOp_mono (s : GlobalApp.AppState) (op : GlobalApp.Op)
    (hInv : GlobalApp.TasksPositive s) :
    s.totalXP ≤ (GlobalApp.stepOp s op).totalXP ∧
    s.unlocked ⊆ (GlobalApp.stepOp s op).unlocked ∧
    GlobalApp.TasksPositive (GlobalApp.stepOp s op) := by
  cases op with
  | render => exact ⟨le_refl _, List.Subset.refl _, hInv⟩
  | addTask n x =>
    simp only [GlobalApp.stepOp]
    cases ha : GlobalApp.addTask s n x with
    | error e => exact ⟨le_refl _, List.Subset.refl _, hInv⟩
    | ok s2 =>
      obtain ⟨hxp, hs2⟩ := addTask_ok_spec s n x s2 ha
      subst hs2
      refine ⟨le_refl _, List.Subset.refl _, ?_⟩
      intro t ht
      simp only [List.mem_append, List.mem_singleton] at ht
      rcases ht with ht | ht
      · exact hInv t ht
      · rw [ht]
        exact hxp
  | completeTask tid =>
    simp only [GlobalApp.stepOp]
    cases hc : GlobalApp.completeTask s tid with
    | error e => exact ⟨le_refl _, List.Subset.refl _, hInv⟩
    | ok s2 =>
      obtain ⟨t, unl, hf, hins, hs2⟩ := completeTask_ok_spec s tid s2 hc
      subst hs2
      dsimp only
      have hmem := List.mem_of_find?_eq_some hf
      have hxp := hInv t hmem
      refine ⟨by omega, insertUnlockedLevels_ok_subset _ _ _ hins, ?_⟩
      intro u hu
      simp only [List.mem_map] at hu
      obtain ⟨a, ha2, hfa⟩ := hu
      have hxa := hInv a ha2
      by_cases hcond : (a.id == tid && !a.completed) = true
      · rw [if_pos hcond] at hfa
        rw [← hfa]
        exact hxa
      · rw [if_neg hcond] at hfa
        rw [← hfa]
        exact hxa
  | addUnlockable lf d =>
    simp only [GlobalApp.stepOp]
    cases ha : GlobalApp.addUnlockable s lf d with
    | error e => exact ⟨le_refl _, List.Subset.refl _, hInv⟩
    | ok s2 =>
      have hs2 := addUnlockable_ok_spec s lf d s2 ha
      subst hs2
      exact ⟨le_refl _, List.Subset.refl _, hInv⟩

/-- C8: across any sequence of requests, from any state whose stored tasks
all carry positive xp (every reachable state does — creation validates
`xp > 0` and the database enforces `CHECK (xp > 0)`), the session total
never decreases and the unlocked-level set never shrinks. -/
theorem totalXP_and_unlocked_monotone (s : GlobalApp.AppState) (ops : List GlobalApp.Op)
    (hInv : GlobalApp.TasksPositive s) :
    s.totalXP ≤ (GlobalApp.run s ops).totalXP ∧
    s.unlocked ⊆ (GlobalApp.run s ops).unlocked := by
  induction ops generalizing s with
  | nil => exact ⟨le_refl _, List.Subset.refl _⟩
  | cons op rest ih =>
    obtain ⟨h1, h2, h3⟩ := stepOp_mono s op hInv
    obtain ⟨h4, h5⟩ := ih (GlobalApp.stepOp s op) h3
    have hrun : GlobalApp.run s (op :: rest) =
        GlobalApp.run (GlobalApp.stepOp s op) rest := rfl
    rw [hrun]
    exact ⟨le_trans h1 h4, List.Subset.trans h2 h5⟩

/-- Witness for C8's theorem `totalXP_and_unlocked_monotone`: fresh state, a task is
created and completed. -/
theorem totalXP_and_unlocked_monotone_witness :
    GlobalApp.TasksPositive GlobalApp.initState ∧
    (GlobalApp.initState.totalXP ≤
      (GlobalApp.run GlobalApp.initState
        [.addTask "w" (some 1200), .completeTask 1, .render]).totalXP ∧
     GlobalApp.initState.unlocked ⊆
      (GlobalApp.run GlobalApp.initState
        [.addTask "w" (some 1200), .completeTask 1, .render]).unlocked) :=
  ⟨fun t ht => absurd ht (List.not_mem_nil t),
   totalXP_and_unlocked_monotone GlobalApp.initState
     [.addTask "w" (some 1200), .completeTask 1, .render]
     (fun t ht => absurd ht (List.not_mem_nil t))⟩

/-- C10: a successful `complete_task` leaves the registered unlockable
rows untouched, and every task whose id differs from the completed one is
present afterwards exactly as it was before (all fields unchanged). -/
theorem completeTask_frame (s : GlobalApp.AppState) (tid : Int) (s' : GlobalApp.AppState)
    (h : GlobalApp.completeTask s tid = .ok s') :
    s'.unlockables = s.unlockables ∧
    (∀ t' : GlobalApp.Task, t'.id ≠ tid → (t' ∈ s'.tasks ↔ t' ∈ s.tasks)) := by
  obtain ⟨t, unl, hf, hins, hs'⟩ := completeTask_ok_spec s tid s' h
  subst hs'
  refine ⟨rfl, ?_⟩
  intro t' hne
  constructor
  · intro hm
    simp only [List.mem_map] at hm
    obtain ⟨a, ha, hfa⟩ := hm
    by_cases hcond : (a.id == tid && !a.completed) = true
    · exfalso
      rw [if_pos hcond] at hfa
      have hid : a.id = tid := by
        simp only [Bool.and_eq_true, beq_iff_eq] at hcond
        exact hcond.1
      apply hne
      rw [← hfa]
      exact hid
    · rw [if_neg hcond] at hfa
      rw [← hfa]
      exact ha
  · intro hm
    refine List.mem_map.mpr ⟨t', hm, ?_⟩
    rw [if_neg ?_]
    simp only [Bool.and_eq_true, beq_iff_eq]
    intro hcontra
    exact hne hcontra.1

/-- Witness for C10's theorem `completeTask_frame`: two tasks, the first is completed,
the second survives unchanged. -/
theorem completeTask_frame_witness :
    ({ GlobalApp.initState with
        totalXP := 300,
        tasks := [{ id := 1, name := "a", xp := 300, completed := true },
                  { id := 2, name := "b", xp := 800, completed := false }],
        nextTaskId := 3 } : GlobalApp.AppState).unlockables =
      ({ GlobalApp.initState with
          tasks := [{ id := 1, name := "a", xp := 300, completed := false },
                    { id := 2, name := "b", xp := 800, completed := false }],
          nextTaskId := 3 } : GlobalApp.AppState).unlockables ∧
    (∀ t' : GlobalApp.Task, t'.id ≠ (1 : Int) →
      (t' ∈ ({ GlobalApp.initState with
          totalXP := 300,
          tasks := [{ id := 1, name := "a", xp := 300, completed := true },
                    { id := 2, name := "b", xp := 800, completed := false }],
          nextTaskId := 3 } : GlobalApp.AppState).tasks ↔
       t' ∈ ({ GlobalApp.initState with
          tasks := [{ id := 1, name := "a", xp := 300, completed := false },
                    { id := 2, name := "b", xp := 800, completed := false }],
          nextTaskId := 3 } : GlobalApp.AppState).tasks)) :=
  completeTask_frame
    { GlobalApp.initState with
      tasks := [{ id := 1, name := "a", xp := 300, completed := false },
                { id := 2, name := "b", xp := 800, completed := false }],
      nextTaskId := 3 } 1 _ (by rfl)

/-- Appending a row that fails the predicate does not change a `find?`. -/
theorem find?_append_single_false {α : Type} (l : List α) (a : α) (p : α → Bool)
    (h : p a = false) : (l ++ [a]).find? p = l.find? p := by
  induction l with
  | nil => simp [List.find?, h]
  | cons b rest ih => cases hb : p b <;> simp [List.find?_cons, hb, ih]

/-- Appending a row that fails the predicate does not change a `filter`. -/
theorem filter_append_single_false {α : Type} (l : List α) (a : α) (p : α → Bool)
    (h : p a = false) : (l ++ [a]).filter p = l.filter p := by
  rw [List.filter_append]
  simp [List.filter_cons, h]

/-- A row update that fixes every predicate-satisfying row and preserves the
predicate leaves `find?` unchanged. -/
theorem find?_map_invariant {α : Type} (f : α → α) (p : α → Bool) (l : List α)
    (h1 : ∀ a, p (f a) = p a) (h2 : ∀ a, p a = true → f a = a) :
    (l.map f).find? p = l.find? p := by
  induction l with
  | nil => rfl
  | cons a rest ih =>
    cases hp : p a with
    | false => simp [List.find?_cons, h1 a, hp, ih]
    | true => simp [List.find?_cons, h1 a, hp, h2 a hp]

/-- A row update that fixes every predicate-satisfying row and preserves the
predicate leaves `filter` unchanged. -/
theorem filter_map_invariant {α : Type} (f : α → α) (p : α → Bool) (l : List α)
    (h1 : ∀ a, p (f a) = p a) (h2 : ∀ a, p a = true → f a = a) :
    (l.map f).filter p = l.filter p := by
  induction l with
  | nil => rfl
  | cons a rest ih =>
    cases hp : p a with
    | false => simp [List.filter_cons, h1 a, hp, ih]
    | true => simp [List.filter_cons, h1 a, hp, h2 a hp, ih]

/-- Ensuring one session's row exists never changes what another session
observes. -/
theorem proj_ensureSession (st : SessionApp.Store) (sid s : String) (hne : sid ≠ s) :
    SessionApp.proj (SessionApp.ensureSession st sid) s = SessionApp.proj st s := by
  unfold SessionApp.ensureSession
  by_cases hany : (st.sessions.any (fun r => r.id == sid)) = true
  · rw [if_pos hany]
  · rw [if_neg hany]
    unfold SessionApp.proj SessionApp.getSessionTotal SessionApp.getTasks
      SessionApp.getUnlockables SessionApp.getUnlockedLevels
    rw [find?_append_single_false _ _ _ (by simpa using hne)]

/-- C9 amended, frame part: every request against one session token leaves
every other session's stored total, tasks, unlockables and unlocked levels
exactly as they were — all SQL in main.go filters reads and writes by
`session_id` (the shared id sequences and the table-wide unique constraint
can still make the other session's request FAIL, but never mutate its
data). -/
theorem step_preserves_other_sessions (st : SessionApp.Store) (sid s : String)
    (op : SessionApp.Op) (hne : sid ≠ s) :
    SessionApp.proj (SessionApp.stepOp st sid op) s = SessionApp.proj st s := by
  cases op with
  | render => exact proj_ensureSession st sid s hne
  | addTask n x =>
    show SessionApp.proj (SessionApp.handleAddTask st sid n x).1 s = SessionApp.proj st s
    unfold SessionApp.handleAddTask
    cases x with
    | none => exact proj_ensureSession st sid s hne
    | some xp =>
      dsimp only
      by_cases hxp : xp ≤ 0
      · rw [if_pos hxp]
        exact proj_ensureSession st sid s hne
      · rw [if_neg hxp]
        rw [← proj_ensureSession st sid s hne]
        unfold SessionApp.proj SessionApp.getSessionTotal SessionApp.getTasks
          SessionApp.getUnlockables SessionApp.getUnlockedLevels
        rw [filter_append_single_false _ _ _ (by simpa using hne)]
  | completeTask tid =>
    show SessionApp.proj (SessionApp.handleAddXP st sid tid).1 s = SessionApp.proj st s
    unfold SessionApp.handleAddXP SessionApp.completeTaskTx
    dsimp only
    cases hf : (SessionApp.ensureSession st sid).tasks.find?
        (fun t => t.id == tid && t.sessionId == sid && !t.completed) with
    | none => exact proj_ensureSession st sid s hne
    | some t =>
      dsimp only
      rw [← proj_ensureSession st sid s hne]
      unfold SessionApp.proj
      simp only [SessionApp.SessionView.mk.injEq]
      refine ⟨?_, ?_, rfl, rfl⟩
      · unfold SessionApp.getSessionTotal
        rw [find?_map_invariant _ _ _ ?_ ?_]
        · intro a
          by_cases ha : (a.id == sid) = true <;> simp [ha]
        · intro a ha
          have h3 : a.id = s := by simpa using ha
          rw [if_neg ?_]
          simp only [beq_iff_eq, h3]
          exact fun hc => hne hc.symm
      · unfold SessionApp.getTasks
        rw [filter_map_invariant _ _ _ ?_ ?_]
        · intro a
          by_cases hc2 : (a.id == tid && a.sessionId == sid && !a.completed) = true <;>
            simp [hc2]
        · intro a ha
          have h3 : a.sessionId = s := by simpa using ha
          rw [if_neg ?_]
          simp only [Bool.and_eq_true, beq_iff_eq]
          intro hc2
          exact hne (hc2.1.2.symm.trans h3)
  | addUnlockable lf d =>
    show SessionApp.proj (SessionApp.handleAddUnlockable st sid lf d).1 s =
      SessionApp.proj st s
    unfold SessionApp.handleAddUnlockable
    cases lf with
    | none => exact proj_ensureSession st sid s hne
    | some level =>
      dsimp only
      by_cases hlv : level < 0
      · rw [if_pos hlv]
        exact proj_ensureSession st sid s hne
      · rw [if_neg hlv]
        by_cases hdup : ((SessionApp.ensureSession st sid).unlockables.any
            (fun u => u.level == level && u.description == d)) = true
        · rw [if_pos hdup]
          exact proj_ensureSession st sid s hne
        · rw [if_neg hdup]
          rw [← proj_ensureSession st sid s hne]
          unfold SessionApp.proj SessionApp.getSessionTotal SessionApp.getTasks
            SessionApp.getUnlockables SessionApp.getUnlockedLevels
          rw [filter_append_single_false _ _ _ (by simpa using hne)]

/-- Witness for C9's amended theorem `step_preserves_other_sessions`: activity in session "b"
leaves session "a"'s view of the fresh store unchanged. -/
theorem step_preserves_other_sessions_witness :
    SessionApp.proj (SessionApp.stepOp SessionApp.Store.init "b"
      (.addTask "t" (some 5))) "a" = SessionApp.proj SessionApp.Store.init "a" :=
  step_preserves_other_sessions SessionApp.Store.init "b" "a" (.addTask "t" (some 5))
    (by decide)

/-- C9 counterexample: two runs that differ only in session "b"'s activity
give session "a" different states — the table-wide
`UNIQUE (level, description)` constraint of main.go's schema spans
sessions, so session "b" registering `(1, "x")` first makes session "a"'s
identical registration fail, and "a" ends with no unlockable at all. -/
theorem cross_session_unique_constraint_interference :
    SessionApp.getUnlockables
      (SessionApp.stepOp SessionApp.Store.init "a" (.addUnlockable (some 1) "x")) "a" =
      [{ id := 1, level := 1, description := "x", sessionId := "a" }] ∧
    SessionApp.getUnlockables
      (SessionApp.stepOp
        (SessionApp.stepOp SessionApp.Store.init "b" (.addUnlockable (some 1) "x"))
        "a" (.addUnlockable (some 1) "x")) "a" = [] ∧
    SessionApp.proj
      (SessionApp.stepOp SessionApp.Store.init "a" (.addUnlockable (some 1) "x")) "a" ≠
    SessionApp.proj
      (SessionApp.stepOp
        (SessionApp.stepOp SessionApp.Store.init "b" (.addUnlockable (some 1) "x"))
        "a" (.addUnlockable (some 1) "x")) "a" := by
  refine ⟨rfl, rfl, ?_⟩
  decide
